import Mathlib

/-!
# Halo 2 color plate extractor: the tag decoder of `src/main.cpp`

A shallow embedding of `swap_endian`, `little_to_native`, `big_to_native` and
`dump_bitmap_to_directory`, followed by theorems about them.

Conventions of the embedding.

* A tag buffer (`std::vector<std::byte>`) is a `List Byte`, `Byte = Fin 256`.
* Machine integers are natural numbers; every C++ operation that can wrap
  carries its modulus.  `std::uint32_t` and `unsigned` arithmetic is taken
  modulo `2 ^ 32` (`int` is 32 bits wide), `std::size_t` arithmetic modulo
  `2 ^ 64`.  `size` (a non-negative `long`) is the length of the buffer.
* `std::endian::native` is a parameter of the model, because the source
  branches on it.
* The multi-character literal `'bitm'` has the value `0x6269746D`, as GCC,
  Clang and MSVC compute it.
* The collaborators (zlib, libtiff, the file system, the allocator) are
  answers recorded in an `Env`; every call the function makes and every
  dereference of the tag buffer is appended to a trace of `Event`s, in
  program order.
* The counter `extracted_count` is a natural number, passed in and returned.
* The batch scheduler of `main` (threads and mutexes) is not modelled.
-/

set_option maxRecDepth 100000

namespace ColorPlate

/-- One byte of a tag file. -/
abbrev Byte := Fin 256

/-- Value of `std::endian::native`. -/
inductive Endian where
  | little
  | big
  deriving DecidableEq, Repr

/-- Value of an unsigned integer whose bytes are given least significant first. -/
def ofBytesLE : List Byte → Nat
  | [] => 0
  | b :: bs => b.val + 256 * ofBytesLE bs

/-- Value of an unsigned integer whose bytes are given most significant first. -/
def ofBytesBE (bs : List Byte) : Nat :=
  ofBytesLE bs.reverse

/-- The `k` bytes of `v`, least significant first. -/
def toBytesLE : Nat → Nat → List Byte
  | 0, _ => []
  | k + 1, v => ⟨v % 256, Nat.mod_lt _ (by decide)⟩ :: toBytesLE k (v / 256)

/-- Object representation of the `k`-byte unsigned integer `v` on a host. -/
def objectBytes (host : Endian) (k v : Nat) : List Byte :=
  match host with
  | .little => toBytesLE k v
  | .big => (toBytesLE k v).reverse

/-- Value a host reads from an object representation. -/
def nativeValue (host : Endian) (bs : List Byte) : Nat :=
  match host with
  | .little => ofBytesLE bs
  | .big => ofBytesBE bs

/-- The template `swap_endian<T>` with `sizeof(T) = k`:
`swapped[i] = unswapped[k - 1 - i]` on the object representation of `v`. -/
def swap_endian (host : Endian) (k v : Nat) : Nat :=
  nativeValue host (objectBytes host k v).reverse

/-- The template `little_to_native<T>` with `sizeof(T) = k`. -/
def little_to_native (host : Endian) (k little : Nat) : Nat :=
  if host = Endian.little then little else swap_endian host k little

/-- The template `big_to_native<T>` with `sizeof(T) = k`. -/
def big_to_native (host : Endian) (k big : Nat) : Nat :=
  if host = Endian.big then big else swap_endian host k big

/-- The expression `*reinterpret_cast<T *>(tag_data_data + off)` with `sizeof(T) = k`. -/
def deref (host : Endian) (tag_data : List Byte) (off k : Nat) : Nat :=
  nativeValue host ((tag_data.drop off).take k)

/-- Value of the multi-character literal `'bitm'`. -/
def bitm : Nat := 0x6269746D

/-- zlib's `Z_OK`. -/
def Z_OK : Int := 0

/-- zlib's `Z_STREAM_END`. -/
def Z_STREAM_END : Int := 1

/-- What one call `inflate(&inflate_stream, Z_FINISH)` did: its return value,
the number of input bytes it consumed and the bytes it wrote to `next_out`. -/
structure InflateResult where
  status : Int
  consumed : Nat
  produced : List Byte

/-- Answers of the collaborators of `dump_bitmap_to_directory`. -/
structure Env where
  /-- Value of `std::endian::native`. -/
  host : Endian
  /-- Value of `std::filesystem::exists(data)`. -/
  data_exists : Bool
  /-- Contents of the tag file, `none` when `std::fopen` fails. -/
  tag_file : Option (List Byte)
  /-- Whether `tag_data.resize(size)` returns without throwing. -/
  tag_resize_ok : Bool
  /-- Whether the stream delivers the requested bytes to `std::fread`. -/
  fread_ok : Bool
  /-- Whether `decompressed_color_plate_data.resize(n)` returns without throwing. -/
  resize_ok : Nat → Bool
  /-- Return value of `inflateInit`. -/
  inflateInit : Int
  /-- Behaviour of `inflate(_, Z_FINISH)` on the input bytes and `avail_out`. -/
  inflate : List Byte → Nat → InflateResult
  /-- Return value of `inflateEnd`. -/
  inflateEnd : Int
  /-- Whether `std::filesystem::create_directories` returns without throwing. -/
  create_directories_ok : Bool
  /-- Whether `TIFFOpen` returns a handle. -/
  tiffOpen_ok : Bool
  /-- Return value of `TIFFWriteScanline` for a row. -/
  tiffWriteScanline : Nat → Int

/-- Calls and buffer accesses of `dump_bitmap_to_directory`, in program order. -/
inductive Event where
  /-- Dereference of `tag_data_data + off` as a `width`-byte integer. -/
  | read (off width : Nat)
  /-- Call of `decompressed_color_plate_data.resize(pixels)`. -/
  | resize (pixels : Nat)
  /-- Call of `inflateInit`. -/
  | inflateInit
  /-- Call of `inflate`; `next_in` is an offset into the tag buffer. -/
  | inflate (next_in avail_in avail_out : Nat)
  /-- Call of `inflateEnd`. -/
  | inflateEnd
  /-- Call of `std::filesystem::create_directories`. -/
  | create_directories
  /-- Call of `TIFFOpen`. -/
  | tiffOpen
  /-- The `TIFFSetField` calls, with the width and the height they pass. -/
  | tiffSetFields (width height : Nat)
  /-- Call of `TIFFWriteScanline` for `row` with its pixels and return value. -/
  | tiffWriteScanline (row : Nat) (pixels : List Nat) (ret : Int)
  /-- Call of `TIFFClose`. -/
  | tiffClose
  deriving DecidableEq, Repr

/-- The exits of `dump_bitmap_to_directory`, one per message, and the success exit. -/
inductive Outcome where
  /-- "already exists". -/
  | already_exists
  /-- "could not be opened for reading". -/
  | not_opened
  /-- "could not be read due to not enough memory". -/
  | read_no_memory
  /-- "could not be read". -/
  | not_read
  /-- "is not a valid bitmap tag". -/
  | not_valid_tag
  /-- "has no color plate data". -/
  | no_color_plate
  /-- "is corrupt". -/
  | corrupt
  /-- "has invalid color plate data". -/
  | invalid_color_plate
  /-- "could not be decompressed due to not enough memory". -/
  | decompress_no_memory
  /-- "could not be decompressed due to invalid compressed data". -/
  | invalid_compressed_data
  /-- "Directory ... could not be made". -/
  | directory_not_made
  /-- "could not be opened for writing". -/
  | not_opened_for_writing
  /-- The final `return true`. -/
  | done
  deriving DecidableEq, Repr

/-- A finished call: the exit taken, the trace, and `extracted_count` afterwards. -/
structure Run where
  outcome : Outcome
  trace : List Event
  extracted_count : Nat

/-- The `bool` the call returns. -/
def Run.ret (r : Run) : Bool :=
  decide (r.outcome = Outcome.done)

/-- The variable `color_plate_width` (line 247), widened to `std::uint32_t`. -/
def color_plate_width (host : Endian) (tag_data : List Byte) : Nat :=
  little_to_native host 2 (deref host tag_data 0x68 2)

/-- The variable `color_plate_height` (line 248), widened to `std::uint32_t`. -/
def color_plate_height (host : Endian) (tag_data : List Byte) : Nat :=
  little_to_native host 2 (deref host tag_data 0x6A 2)

/-- The variable `color_plate_compressed_length` (line 249), a `std::uint32_t`. -/
def color_plate_compressed_length (host : Endian) (tag_data : List Byte) : Nat :=
  little_to_native host 4 (deref host tag_data 0x6C 4)

/-- The variable `compressed_color_plate_offset` (line 258): the sum is formed
in `std::uint32_t` and then widened to `std::size_t`. -/
def compressed_color_plate_offset (host : Endian) (tag_data : List Byte) : Nat :=
  (little_to_native host 4 (deref host tag_data 0x4C 4) + 0x50) % 2 ^ 32

/-- The variable `color_plate_size` (line 268): the prefix in front of the
compressed bytes. -/
def color_plate_size (host : Endian) (tag_data : List Byte) : Nat :=
  big_to_native host 4 (deref host tag_data (compressed_color_plate_offset host tag_data) 4)

/-- The loop body of line 341 on one `std::uint32_t`. -/
def swap_red_blue (i : Nat) : Nat :=
  (i &&& 0xFF00FF00) ||| ((i &&& 0x00FF0000) >>> 16) ||| ((i &&& 0x000000FF) <<< 16)

/-- The two loops of lines 335 to 342 over `decompressed_color_plate_data`. -/
def normalize (host : Endian) (pixels : List Nat) : List Nat :=
  (pixels.map (little_to_native host 4)).map swap_red_blue

/-- Memory of the value-initialised output vector of `n` bytes after zlib wrote
`produced` to its start. -/
def output_bytes (n : Nat) (produced : List Byte) : List Byte :=
  (produced ++ List.replicate n (0 : Byte)).take n

/-- The elements of a `std::vector<std::uint32_t>` of `count` elements whose
memory is `mem`. -/
def vector_elements (host : Endian) (mem : List Byte) (count : Nat) : List Nat :=
  (List.range count).map (fun i => nativeValue host ((mem.drop (4 * i)).take 4))

/-- The `TIFFWriteScanline` loop of lines 345 to 347. -/
def write_scanlines (env : Env) (pixels : List Nat) (width height : Nat) : List Event :=
  (List.range height).map
    (fun y => Event.tiffWriteScanline y ((pixels.drop (y * width)).take width)
      (env.tiffWriteScanline y))

/-- Lines 301 to 354 of `dump_bitmap_to_directory`: the decompressed data is written out. -/
def write_image (env : Env) (tag_data : List Byte) (raw : List Nat) (trace : List Event)
    (extracted_count : Nat) : Run :=
  let color_plate_width := color_plate_width env.host tag_data
  let color_plate_height := color_plate_height env.host tag_data
  let trace := trace ++ [Event.create_directories]
  if env.create_directories_ok = false then
    ⟨Outcome.directory_not_made, trace, extracted_count⟩
  else
    let trace := trace ++ [Event.tiffOpen]
    if env.tiffOpen_ok = false then
      ⟨Outcome.not_opened_for_writing, trace, extracted_count⟩
    else
      let trace := trace ++ [Event.tiffSetFields color_plate_width color_plate_height]
      let pixels := normalize env.host raw
      let trace := trace ++ write_scanlines env pixels color_plate_width color_plate_height
      let trace := trace ++ [Event.tiffClose]
      ⟨Outcome.done, trace, extracted_count + 1⟩

/-- Lines 265 to 299 of `dump_bitmap_to_directory`, then `write_image`: the
block is checked against the dimensions and decompressed. -/
def decompress (env : Env) (tag_data : List Byte) (trace : List Event)
    (extracted_count : Nat) : Run :=
  let host := env.host
  let color_plate_width := color_plate_width host tag_data
  let color_plate_height := color_plate_height host tag_data
  let color_plate_compressed_length := color_plate_compressed_length host tag_data
  let compressed_color_plate_offset := compressed_color_plate_offset host tag_data
  let trace := trace ++ [Event.read compressed_color_plate_offset 4]
  let color_plate_size := color_plate_size host tag_data
  if ((color_plate_width * color_plate_height) % 2 ^ 32 * 4) % 2 ^ 64 ≠ color_plate_size then
    ⟨Outcome.invalid_color_plate, trace, extracted_count⟩
  else
    let trace := trace ++ [Event.resize (color_plate_size / 4)]
    if env.resize_ok (color_plate_size / 4) = false then
      ⟨Outcome.decompress_no_memory, trace, extracted_count⟩
    else
      let avail_out := color_plate_size
      let avail_in := color_plate_compressed_length - 4
      let next_in := compressed_color_plate_offset + 4
      let trace := trace ++ [Event.inflateInit]
      if env.inflateInit ≠ Z_OK then
        ⟨Outcome.invalid_compressed_data, trace, extracted_count⟩
      else
        let trace := trace ++ [Event.inflate next_in avail_in avail_out]
        let result := env.inflate ((tag_data.drop next_in).take avail_in) avail_out
        if result.status ≠ Z_STREAM_END then
          ⟨Outcome.invalid_compressed_data, trace, extracted_count⟩
        else
          let trace := trace ++ [Event.inflateEnd]
          if env.inflateEnd ≠ Z_OK then
            ⟨Outcome.invalid_compressed_data, trace, extracted_count⟩
          else
            let raw := vector_elements host (output_bytes avail_out result.produced)
              (color_plate_size / 4)
            write_image env tag_data raw trace extracted_count

/-- Lines 240 to 354 of `dump_bitmap_to_directory`: everything after the tag
file has been read into `tag_data`. -/
def dump_tag_data (env : Env) (tag_data : List Byte) (extracted_count : Nat) : Run :=
  let host := env.host
  let size := tag_data.length
  if size < 0x100 then
    ⟨Outcome.not_valid_tag, [], extracted_count⟩
  else if little_to_native host 4 (deref host tag_data 0x24 4) ≠ bitm then
    ⟨Outcome.not_valid_tag, [Event.read 0x24 4], extracted_count⟩
  else if little_to_native host 1 (if deref host tag_data 0x38 2 ≠ 7 then 1 else 0) ≠ 0 then
    ⟨Outcome.not_valid_tag, [Event.read 0x24 4, Event.read 0x38 2], extracted_count⟩
  else
    let trace := [Event.read 0x24 4, Event.read 0x38 2, Event.read 0x68 2, Event.read 0x6A 2,
      Event.read 0x6C 4]
    let color_plate_compressed_length := color_plate_compressed_length host tag_data
    if color_plate_compressed_length = 0 then
      ⟨Outcome.no_color_plate, trace, extracted_count⟩
    else
      let trace := trace ++ [Event.read 0x4C 4]
      let compressed_color_plate_offset := compressed_color_plate_offset host tag_data
      if (color_plate_compressed_length + compressed_color_plate_offset) % 2 ^ 64 > size
          ∨ color_plate_compressed_length < 4 then
        ⟨Outcome.corrupt, trace, extracted_count⟩
      else
        decompress env tag_data trace extracted_count

/-- The function `dump_bitmap_to_directory` of `src/main.cpp`. -/
def dump_bitmap_to_directory (env : Env) (overwrite : Bool) (extracted_count : Nat) : Run :=
  if overwrite = false ∧ env.data_exists = true then
    ⟨Outcome.already_exists, [], extracted_count⟩
  else
    match env.tag_file with
    | none => ⟨Outcome.not_opened, [], extracted_count⟩
    | some contents =>
      if env.tag_resize_ok = false then
        ⟨Outcome.read_no_memory, [], extracted_count⟩
      else if contents.length = 0 ∨ env.fread_ok = false then
        ⟨Outcome.not_read, [], extracted_count⟩
      else
        dump_tag_data env contents extracted_count

/-- A tag file for examples: a header of `0x100` bytes carrying the magic and
the given fields (each stored as the file stores it), followed by `block`. -/
def example_tag (version offset width height length : List Byte) (block : List Byte) :
    List Byte :=
  List.replicate 0x24 0 ++ [0x6D, 0x74, 0x69, 0x62] ++ List.replicate 16 0 ++ version
    ++ List.replicate 18 0 ++ offset ++ List.replicate 24 0 ++ width ++ height ++ length
    ++ List.replicate 144 0 ++ block

/-- Collaborators for examples: every call succeeds, `inflate` behaves as
`inflate` and `TIFFWriteScanline` returns `scanline`. -/
def example_env (host : Endian) (inflate : List Byte → Nat → InflateResult)
    (scanline : Int) : Env where
  host := host
  data_exists := false
  tag_file := none
  tag_resize_ok := true
  fread_ok := true
  resize_ok := fun _ => true
  inflateInit := Z_OK
  inflate := inflate
  inflateEnd := Z_OK
  create_directories_ok := true
  tiffOpen_ok := true
  tiffWriteScanline := fun _ => scanline

/-- zlib on two streams: the stream of the empty data, and the stream of four
zero bytes, the latter also when one more byte follows it (zlib stops where
the stream ends and leaves that byte unconsumed).  Anything else is answered
`Z_DATA_ERROR`. -/
def example_inflate (input : List Byte) (_avail_out : Nat) : InflateResult :=
  if input = [0x78, 0x9C, 0x03, 0x00, 0x00, 0x00, 0x00, 0x01] then
    ⟨Z_STREAM_END, 8, []⟩
  else if input.take 12 = [0x78, 0x9C, 0x63, 0x60, 0x60, 0x60, 0x00, 0x00, 0x00, 0x04, 0x00, 0x01]
      ∧ input.length ≤ 13 then
    ⟨Z_STREAM_END, 12, [0, 0, 0, 0]⟩
  else
    ⟨-3, 0, []⟩

/-- A 1 x 1 tag whose block declares four bytes and holds the zlib stream of
the empty data. -/
def early_end_tag : List Byte :=
  example_tag [7, 0] [0xB0, 0, 0, 0] [1, 0] [1, 0] [12, 0, 0, 0]
    [0, 0, 0, 4, 0x78, 0x9C, 0x03, 0x00, 0x00, 0x00, 0x00, 0x01]

/-- A 1 x 1 tag whose block declares four bytes and holds the zlib stream of
four zero bytes followed by one more byte. -/
def trailing_byte_tag : List Byte :=
  example_tag [7, 0] [0xB0, 0, 0, 0] [1, 0] [1, 0] [17, 0, 0, 0]
    [0, 0, 0, 4, 0x78, 0x9C, 0x63, 0x60, 0x60, 0x60, 0x00, 0x00, 0x00, 0x04, 0x00, 0x01, 0xFF]

/-- A 1 x 1 tag whose block declares four bytes and holds the zlib stream of
four zero bytes. -/
def plate_tag : List Byte :=
  example_tag [7, 0] [0xB0, 0, 0, 0] [1, 0] [1, 0] [16, 0, 0, 0]
    [0, 0, 0, 4, 0x78, 0x9C, 0x63, 0x60, 0x60, 0x60, 0x00, 0x00, 0x00, 0x04, 0x00, 0x01]

/-- A tag of `0x100` bytes whose offset field is `0xFFFFFFB0`, so that adding
`0x50` to it in 32 bits gives 0: the first bytes of the file then serve as the
block, and they hold the prefix 4 and the zlib stream of four zero bytes. -/
def wrapping_offset_tag : List Byte :=
  [0, 0, 0, 4, 0x78, 0x9C, 0x63, 0x60, 0x60, 0x60, 0x00, 0x00, 0x00, 0x04, 0x00, 0x01]
    ++ List.replicate 20 0
    ++ (example_tag [7, 0] [0xB0, 0xFF, 0xFF, 0xFF] [1, 0] [1, 0] [16, 0, 0, 0] []).drop 0x24

/-- The tag `plate_tag` with the bytes `00 07` in the version field: version
`0x0700` in the file's little-endian byte order. -/
def swapped_version_tag : List Byte :=
  example_tag [0, 7] [0xB0, 0, 0, 0] [1, 0] [1, 0] [16, 0, 0, 0]
    [0, 0, 0, 4, 0x78, 0x9C, 0x63, 0x60, 0x60, 0x60, 0x00, 0x00, 0x00, 0x04, 0x00, 0x01]

/-- The zlib stream of the sixteen bytes `DD CC BB AA 44 33 22 11 88 77 66 55
CC BB AA 99`, the pixels `0xAABBCCDD`, `0x11223344`, `0x55667788`,
`0x99AABBCC` as the file stores them. -/
def four_pixel_stream : List Byte :=
  [0x78, 0x9C, 0xBB, 0x7B, 0x66, 0xF7, 0x2A, 0x17, 0x63, 0x25, 0xC1, 0x8E, 0xF2, 0xB4, 0x50,
    0x20, 0x73, 0x26, 0x00, 0x46, 0xDA, 0x08, 0x3D]

/-- A 2 x 2 tag whose block declares sixteen bytes and holds `four_pixel_stream`. -/
def four_pixel_tag : List Byte :=
  example_tag [7, 0] [0xB0, 0, 0, 0] [2, 0] [2, 0] [27, 0, 0, 0]
    ([0, 0, 0, 16] ++ four_pixel_stream)

/-- The tag `four_pixel_tag` with the bytes `00 07` in the version field, the
bytes a big-endian host lets through line 241. -/
def four_pixel_tag_swapped_version : List Byte :=
  example_tag [0, 7] [0xB0, 0, 0, 0] [2, 0] [2, 0] [27, 0, 0, 0]
    ([0, 0, 0, 16] ++ four_pixel_stream)

/-- zlib on `four_pixel_stream`: it consumes the 23 bytes and writes the
sixteen bytes of the four pixels.  Anything else is answered `Z_DATA_ERROR`. -/
def four_pixel_inflate (input : List Byte) (_avail_out : Nat) : InflateResult :=
  if input = four_pixel_stream then
    ⟨Z_STREAM_END, 23,
      [0xDD, 0xCC, 0xBB, 0xAA, 0x44, 0x33, 0x22, 0x11, 0x88, 0x77, 0x66, 0x55, 0xCC, 0xBB,
        0xAA, 0x99]⟩
  else
    ⟨-3, 0, []⟩

/-- The `k`-byte little-endian field of a tag file at `off`. -/
def field_le (tag_data : List Byte) (off k : Nat) : Nat :=
  ofBytesLE ((tag_data.drop off).take k)

/-- The `k`-byte big-endian field of a tag file at `off`. -/
def field_be (tag_data : List Byte) (off k : Nat) : Nat :=
  ofBytesBE ((tag_data.drop off).take k)

/-- The reads of the header on a path that reaches the bounds check. -/
def header_reads : List Event :=
  [Event.read 0x24 4, Event.read 0x38 2, Event.read 0x68 2, Event.read 0x6A 2,
    Event.read 0x6C 4, Event.read 0x4C 4]

/-- The trace of a run that reaches line 301. -/
def decompress_trace (env : Env) (tag_data : List Byte) : List Event :=
  header_reads
    ++ [Event.read (compressed_color_plate_offset env.host tag_data) 4,
      Event.resize (color_plate_size env.host tag_data / 4),
      Event.inflateInit,
      Event.inflate (compressed_color_plate_offset env.host tag_data + 4)
        (color_plate_compressed_length env.host tag_data - 4)
        (color_plate_size env.host tag_data),
      Event.inflateEnd]

/-- The memory of `decompressed_color_plate_data` when `inflate` has returned
(line 296): the bytes zlib wrote, in the order it wrote them. -/
def decompressed_bytes (env : Env) (tag_data : List Byte) : List Byte :=
  output_bytes (color_plate_size env.host tag_data)
    (env.inflate
      ((tag_data.drop (compressed_color_plate_offset env.host tag_data + 4)).take
        (color_plate_compressed_length env.host tag_data - 4))
      (color_plate_size env.host tag_data)).produced

/-- An access to the tag buffer lies inside it: a read is a header field or the
prefix of a block that passed the bounds check, and the range handed to zlib
is the rest of that block. -/
def in_bounds (env : Env) (tag_data : List Byte) : Event → Prop
  | Event.read off width =>
    off + width ≤ tag_data.length
      ∧ ((off, width) ∈ [(0x24, 4), (0x38, 2), (0x4C, 4), (0x68, 2), (0x6A, 2), (0x6C, 4)]
        ∨ ((off, width) = (compressed_color_plate_offset env.host tag_data, 4)
          ∧ color_plate_compressed_length env.host tag_data
              + compressed_color_plate_offset env.host tag_data ≤ tag_data.length
          ∧ 4 ≤ color_plate_compressed_length env.host tag_data))
  | Event.inflate next_in avail_in _ =>
    next_in = compressed_color_plate_offset env.host tag_data + 4
      ∧ avail_in = color_plate_compressed_length env.host tag_data - 4
      ∧ next_in + avail_in
        = compressed_color_plate_offset env.host tag_data
          + color_plate_compressed_length env.host tag_data
      ∧ next_in + avail_in ≤ tag_data.length
      ∧ ((tag_data.drop next_in).take avail_in).length = avail_in
  | _ => True


/-! # Theorems -/

/-! ## Byte order -/

theorem toBytesLE_ofBytesLE (bs : List Byte) : toBytesLE bs.length (ofBytesLE bs) = bs := by
  induction bs with
  | nil => rfl
  | cons b bs ih =>
    have h1 : (b.val + 256 * ofBytesLE bs) % 256 = b.val := by
      have := b.isLt
      omega
    have h2 : (b.val + 256 * ofBytesLE bs) / 256 = ofBytesLE bs := by
      have := b.isLt
      omega
    simp only [List.length_cons, ofBytesLE, toBytesLE, h2, ih]
    congr 1
    exact Fin.ext h1

theorem ofBytesLE_lt (bs : List Byte) : ofBytesLE bs < 256 ^ bs.length := by
  induction bs with
  | nil => simp [ofBytesLE]
  | cons b bs ih =>
    have := b.isLt
    simp only [ofBytesLE, List.length_cons, pow_succ]
    omega

theorem swap_endian_nativeValue (host : Endian) (bs : List Byte) :
    swap_endian host bs.length (nativeValue host bs) = nativeValue host bs.reverse := by
  cases host with
  | little =>
    simp [swap_endian, nativeValue, objectBytes, toBytesLE_ofBytesLE]
  | big =>
    have h := toBytesLE_ofBytesLE bs.reverse
    rw [List.length_reverse] at h
    simp [swap_endian, nativeValue, objectBytes, ofBytesBE, h]

theorem little_to_native_nativeValue (host : Endian) (bs : List Byte) :
    little_to_native host bs.length (nativeValue host bs) = ofBytesLE bs := by
  cases host with
  | little => simp [little_to_native, nativeValue]
  | big =>
    rw [little_to_native, if_neg (by decide), swap_endian_nativeValue]
    simp [nativeValue, ofBytesBE]

theorem big_to_native_nativeValue (host : Endian) (bs : List Byte) :
    big_to_native host bs.length (nativeValue host bs) = ofBytesBE bs := by
  cases host with
  | little =>
    rw [big_to_native, if_neg (by decide), swap_endian_nativeValue]
    simp [nativeValue, ofBytesBE]
  | big => simp [big_to_native, nativeValue]

theorem length_field_bytes (tag_data : List Byte) (off k : Nat)
    (h : off + k ≤ tag_data.length) : ((tag_data.drop off).take k).length = k := by
  simp only [List.length_take, List.length_drop]
  omega

theorem little_to_native_deref (host : Endian) (tag_data : List Byte) (off k : Nat)
    (h : off + k ≤ tag_data.length) :
    little_to_native host k (deref host tag_data off k) = field_le tag_data off k := by
  have hl := length_field_bytes tag_data off k h
  have := little_to_native_nativeValue host ((tag_data.drop off).take k)
  rw [hl] at this
  exact this

theorem big_to_native_deref (host : Endian) (tag_data : List Byte) (off k : Nat)
    (h : off + k ≤ tag_data.length) :
    big_to_native host k (deref host tag_data off k) = field_be tag_data off k := by
  have hl := length_field_bytes tag_data off k h
  have := big_to_native_nativeValue host ((tag_data.drop off).take k)
  rw [hl] at this
  exact this

theorem field_le_lt (tag_data : List Byte) (off k : Nat) : field_le tag_data off k < 256 ^ k := by
  have h := ofBytesLE_lt ((tag_data.drop off).take k)
  have hk : ((tag_data.drop off).take k).length ≤ k := by
    simp only [List.length_take]
    omega
  exact lt_of_lt_of_le h (Nat.pow_le_pow_right (by decide) hk)

/-- The `bool` of the version test passes through `little_to_native` unchanged. -/
theorem little_to_native_bool (host : Endian) (b : Nat) (h : b < 2) :
    little_to_native host 1 b = b := by
  cases host with
  | little => simp [little_to_native]
  | big =>
    have hb : b = 0 ∨ b = 1 := by omega
    rcases hb with rfl | rfl <;> decide

/-! ## The fields the code reads, as fields of the file -/

theorem color_plate_width_eq (host : Endian) (tag_data : List Byte)
    (h : 0x100 ≤ tag_data.length) :
    color_plate_width host tag_data = field_le tag_data 0x68 2 :=
  little_to_native_deref host tag_data 0x68 2 (by omega)

theorem color_plate_height_eq (host : Endian) (tag_data : List Byte)
    (h : 0x100 ≤ tag_data.length) :
    color_plate_height host tag_data = field_le tag_data 0x6A 2 :=
  little_to_native_deref host tag_data 0x6A 2 (by omega)

theorem color_plate_compressed_length_eq (host : Endian) (tag_data : List Byte)
    (h : 0x100 ≤ tag_data.length) :
    color_plate_compressed_length host tag_data = field_le tag_data 0x6C 4 :=
  little_to_native_deref host tag_data 0x6C 4 (by omega)

theorem compressed_color_plate_offset_eq (host : Endian) (tag_data : List Byte)
    (h : 0x100 ≤ tag_data.length) :
    compressed_color_plate_offset host tag_data = (field_le tag_data 0x4C 4 + 0x50) % 2 ^ 32 := by
  rw [compressed_color_plate_offset, little_to_native_deref host tag_data 0x4C 4 (by omega)]

theorem color_plate_size_eq (host : Endian) (tag_data : List Byte)
    (h : compressed_color_plate_offset host tag_data + 4 ≤ tag_data.length) :
    color_plate_size host tag_data
      = field_be tag_data (compressed_color_plate_offset host tag_data) 4 :=
  big_to_native_deref host tag_data _ 4 h

/-- A tag that is not turned away by the header, the empty-plate and the
bounds checks is handed to `decompress`, and the conditions of those checks
hold of it. -/
theorem dump_tag_data_of_passes (env : Env) (tag_data : List Byte) (extracted_count : Nat)
    (h1 : (dump_tag_data env tag_data extracted_count).outcome ≠ Outcome.not_valid_tag)
    (h2 : (dump_tag_data env tag_data extracted_count).outcome ≠ Outcome.no_color_plate)
    (h3 : (dump_tag_data env tag_data extracted_count).outcome ≠ Outcome.corrupt) :
    0x100 ≤ tag_data.length
      ∧ color_plate_compressed_length env.host tag_data
          + compressed_color_plate_offset env.host tag_data ≤ tag_data.length
      ∧ 4 ≤ color_plate_compressed_length env.host tag_data
      ∧ dump_tag_data env tag_data extracted_count
          = decompress env tag_data header_reads extracted_count := by
  by_cases c1 : tag_data.length < 0x100
  · exact absurd (by simp only [dump_tag_data, if_pos c1]) h1
  by_cases c2 : little_to_native env.host 4 (deref env.host tag_data 0x24 4) ≠ bitm
  · exact absurd (by simp only [dump_tag_data, if_neg c1, if_pos c2]) h1
  by_cases c3 : little_to_native env.host 1
      (if deref env.host tag_data 0x38 2 ≠ 7 then 1 else 0) ≠ 0
  · exact absurd (by simp only [dump_tag_data, if_neg c1, if_neg c2, if_pos c3]) h1
  by_cases c4 : color_plate_compressed_length env.host tag_data = 0
  · exact absurd (by simp only [dump_tag_data, if_neg c1, if_neg c2, if_neg c3, if_pos c4]) h2
  by_cases c5 : (color_plate_compressed_length env.host tag_data
      + compressed_color_plate_offset env.host tag_data) % 2 ^ 64 > tag_data.length
      ∨ color_plate_compressed_length env.host tag_data < 4
  · exact absurd
      (by simp only [dump_tag_data, if_neg c1, if_neg c2, if_neg c3, if_neg c4, if_pos c5]) h3
  have hlen : color_plate_compressed_length env.host tag_data < 2 ^ 32 := by
    rw [color_plate_compressed_length_eq env.host tag_data (by omega)]
    exact field_le_lt tag_data 0x6C 4
  have hoff : compressed_color_plate_offset env.host tag_data < 2 ^ 32 := by
    unfold compressed_color_plate_offset
    exact Nat.mod_lt _ (by decide)
  have hsum : (color_plate_compressed_length env.host tag_data
      + compressed_color_plate_offset env.host tag_data) % 2 ^ 64
      = color_plate_compressed_length env.host tag_data
        + compressed_color_plate_offset env.host tag_data := by
    apply Nat.mod_eq_of_lt
    norm_num at hlen hoff ⊢
    omega
  have c5' := c5
  rw [hsum] at c5'
  refine ⟨by omega, by omega, by omega, ?_⟩
  simp only [dump_tag_data, if_neg c1, if_neg c2, if_neg c3, if_neg c4, if_neg c5, header_reads,
    List.cons_append, List.nil_append]

/-- The header check lets a tag through only if it has `0x100` bytes, and then
the run is the rest of the function from line 246 on. -/
theorem dump_tag_data_of_valid (env : Env) (tag_data : List Byte) (extracted_count : Nat)
    (h1 : (dump_tag_data env tag_data extracted_count).outcome ≠ Outcome.not_valid_tag) :
    0x100 ≤ tag_data.length
      ∧ dump_tag_data env tag_data extracted_count
        = if color_plate_compressed_length env.host tag_data = 0 then
            ⟨Outcome.no_color_plate, [Event.read 0x24 4, Event.read 0x38 2, Event.read 0x68 2,
              Event.read 0x6A 2, Event.read 0x6C 4], extracted_count⟩
          else if (color_plate_compressed_length env.host tag_data
              + compressed_color_plate_offset env.host tag_data) % 2 ^ 64 > tag_data.length
              ∨ color_plate_compressed_length env.host tag_data < 4 then
            ⟨Outcome.corrupt, header_reads, extracted_count⟩
          else
            decompress env tag_data header_reads extracted_count := by
  by_cases c1 : tag_data.length < 0x100
  · exact absurd (by simp only [dump_tag_data, if_pos c1]) h1
  by_cases c2 : little_to_native env.host 4 (deref env.host tag_data 0x24 4) ≠ bitm
  · exact absurd (by simp only [dump_tag_data, if_neg c1, if_pos c2]) h1
  by_cases c3 : little_to_native env.host 1
      (if deref env.host tag_data 0x38 2 ≠ 7 then 1 else 0) ≠ 0
  · exact absurd (by simp only [dump_tag_data, if_neg c1, if_neg c2, if_pos c3]) h1
  refine ⟨by omega, ?_⟩
  simp only [dump_tag_data, if_neg c1, if_neg c2, if_neg c3, header_reads,
    List.cons_append, List.nil_append]

/-- The product on line 271 does not wrap: it is the exact `width * height * 4`. -/
theorem expected_size_exact (host : Endian) (tag_data : List Byte)
    (h : 0x100 ≤ tag_data.length) :
    ((color_plate_width host tag_data * color_plate_height host tag_data) % 2 ^ 32 * 4) % 2 ^ 64
      = field_le tag_data 0x68 2 * field_le tag_data 0x6A 2 * 4 := by
  rw [color_plate_width_eq host tag_data h, color_plate_height_eq host tag_data h]
  have hw : field_le tag_data 0x68 2 ≤ 65535 := by
    have := field_le_lt tag_data 0x68 2
    omega
  have hh : field_le tag_data 0x6A 2 ≤ 65535 := by
    have := field_le_lt tag_data 0x6A 2
    omega
  have hp : field_le tag_data 0x68 2 * field_le tag_data 0x6A 2 ≤ 65535 * 65535 :=
    Nat.mul_le_mul hw hh
  rw [Nat.mod_eq_of_lt (by omega), Nat.mod_eq_of_lt (by omega)]

/-- Once zlib has succeeded, the call can only end at one of the three exits
of the writing stage. -/
theorem write_image_outcome (env : Env) (tag_data : List Byte) (raw : List Nat)
    (trace : List Event) (extracted_count : Nat) :
    (write_image env tag_data raw trace extracted_count).outcome = Outcome.directory_not_made
      ∨ (write_image env tag_data raw trace extracted_count).outcome
        = Outcome.not_opened_for_writing
      ∨ (write_image env tag_data raw trace extracted_count).outcome = Outcome.done := by
  unfold write_image
  split_ifs <;> simp

/-! ## The channel swap, bit by bit -/

theorem testBit_keep_mask (i : Nat) :
    Nat.testBit 0xFF00FF00 i = decide (8 ≤ i ∧ i < 16 ∨ 24 ≤ i ∧ i < 32) := by
  by_cases h : i < 32
  · interval_cases i <;> rfl
  · have h2 : (0xFF00FF00 : Nat) < 2 ^ i :=
      lt_of_lt_of_le (by norm_num) (Nat.pow_le_pow_right (by decide) (not_lt.mp h))
    rw [Nat.testBit_lt_two_pow h2]
    symm
    rw [decide_eq_false_iff_not]
    omega

theorem testBit_red_mask (i : Nat) :
    Nat.testBit 0x00FF0000 i = decide (16 ≤ i ∧ i < 24) := by
  by_cases h : i < 32
  · interval_cases i <;> rfl
  · have h2 : (0x00FF0000 : Nat) < 2 ^ i :=
      lt_of_lt_of_le (by norm_num) (Nat.pow_le_pow_right (by decide) (not_lt.mp h))
    rw [Nat.testBit_lt_two_pow h2]
    symm
    rw [decide_eq_false_iff_not]
    omega

theorem testBit_blue_mask (i : Nat) :
    Nat.testBit 0x000000FF i = decide (i < 8) := by
  by_cases h : i < 32
  · interval_cases i <;> rfl
  · have h2 : (0x000000FF : Nat) < 2 ^ i :=
      lt_of_lt_of_le (by norm_num) (Nat.pow_le_pow_right (by decide) (not_lt.mp h))
    rw [Nat.testBit_lt_two_pow h2]
    symm
    rw [decide_eq_false_iff_not]
    omega

/-- Bit `i` of the result of line 341. -/
theorem testBit_swap_red_blue (p i : Nat) : (swap_red_blue p).testBit i =
    if i < 8 then p.testBit (i + 16) else if i < 16 then p.testBit i
    else if i < 24 then p.testBit (i - 16) else if i < 32 then p.testBit i else false := by
  unfold swap_red_blue
  simp only [Nat.testBit_or, Nat.testBit_and, Nat.testBit_shiftRight, Nat.testBit_shiftLeft,
    testBit_keep_mask, testBit_red_mask, testBit_blue_mask]
  have e : 16 + i = i + 16 := by omega
  rw [e]
  split_ifs with h1 h2 h3 h4
  · have a1 : ¬ 8 ≤ i := by omega
    have a2 : ¬ 24 ≤ i := by omega
    have a3 : i + 16 < 24 := by omega
    have a4 : ¬ 16 ≤ i := by omega
    simp [a1, a2, a3, a4]
  · have a1 : 8 ≤ i := by omega
    have a3 : ¬ i + 16 < 24 := by omega
    have a4 : ¬ 16 ≤ i := by omega
    simp [a1, h2, a3, a4]
  · have a1 : ¬ i < 16 := by omega
    have a2 : ¬ 24 ≤ i := by omega
    have a3 : ¬ i + 16 < 24 := by omega
    have a4 : 16 ≤ i := by omega
    have a5 : i - 16 < 8 := by omega
    simp [a1, a2, a3, a4, a5]
  · have a1 : ¬ i < 16 := by omega
    have a2 : 24 ≤ i := by omega
    have a3 : ¬ i + 16 < 24 := by omega
    have a5 : ¬ i - 16 < 8 := by omega
    simp [a1, a2, a3, h4, a5]
  · have a1 : ¬ i < 16 := by omega
    have a2 : ¬ i < 32 := by omega
    have a3 : ¬ i + 16 < 24 := by omega
    have a5 : ¬ i - 16 < 8 := by omega
    simp [a1, a2, a3, a5]

theorem swap_red_blue_lt (p : Nat) : swap_red_blue p < 2 ^ 32 := by
  apply Nat.lt_pow_two_of_testBit
  intro i hi
  rw [testBit_swap_red_blue]
  simp only [if_neg (show ¬ i < 8 by omega), if_neg (show ¬ i < 16 by omega),
    if_neg (show ¬ i < 24 by omega), if_neg (show ¬ i < 32 by omega)]

/-! ## The exits of the function -/

/-- Case analysis on the exit `dump_tag_data` takes: a property holds of the
run as soon as it holds of each of the thirteen possible results, each under
the conditions that lead to it (with the sums and products freed of their
moduli, which never bite). -/
theorem dump_tag_data_cases (env : Env) (tag_data : List Byte) (extracted_count : Nat)
    (P : Run → Prop)
    (k1 : tag_data.length < 0x100 → P ⟨Outcome.not_valid_tag, [], extracted_count⟩)
    (k2 : 0x100 ≤ tag_data.length →
      little_to_native env.host 4 (deref env.host tag_data 0x24 4) ≠ bitm →
      P ⟨Outcome.not_valid_tag, [Event.read 0x24 4], extracted_count⟩)
    (k3 : 0x100 ≤ tag_data.length →
      little_to_native env.host 4 (deref env.host tag_data 0x24 4) = bitm →
      little_to_native env.host 1 (if deref env.host tag_data 0x38 2 ≠ 7 then 1 else 0) ≠ 0 →
      P ⟨Outcome.not_valid_tag, [Event.read 0x24 4, Event.read 0x38 2], extracted_count⟩)
    (k4 : 0x100 ≤ tag_data.length →
      little_to_native env.host 4 (deref env.host tag_data 0x24 4) = bitm →
      little_to_native env.host 1 (if deref env.host tag_data 0x38 2 ≠ 7 then 1 else 0) = 0 →
      color_plate_compressed_length env.host tag_data = 0 →
      P ⟨Outcome.no_color_plate, [Event.read 0x24 4, Event.read 0x38 2, Event.read 0x68 2,
        Event.read 0x6A 2, Event.read 0x6C 4], extracted_count⟩)
    (k5 : 0x100 ≤ tag_data.length →
      little_to_native env.host 4 (deref env.host tag_data 0x24 4) = bitm →
      little_to_native env.host 1 (if deref env.host tag_data 0x38 2 ≠ 7 then 1 else 0) = 0 →
      color_plate_compressed_length env.host tag_data ≠ 0 →
      (color_plate_compressed_length env.host tag_data
          + compressed_color_plate_offset env.host tag_data > tag_data.length
        ∨ color_plate_compressed_length env.host tag_data < 4) →
      P ⟨Outcome.corrupt, header_reads, extracted_count⟩)
    (k6 : 0x100 ≤ tag_data.length →
      color_plate_compressed_length env.host tag_data
        + compressed_color_plate_offset env.host tag_data ≤ tag_data.length →
      4 ≤ color_plate_compressed_length env.host tag_data →
      color_plate_width env.host tag_data * color_plate_height env.host tag_data * 4
        ≠ color_plate_size env.host tag_data →
      P ⟨Outcome.invalid_color_plate,
        header_reads ++ [Event.read (compressed_color_plate_offset env.host tag_data) 4],
        extracted_count⟩)
    (k7 : 0x100 ≤ tag_data.length →
      color_plate_compressed_length env.host tag_data
        + compressed_color_plate_offset env.host tag_data ≤ tag_data.length →
      4 ≤ color_plate_compressed_length env.host tag_data →
      color_plate_width env.host tag_data * color_plate_height env.host tag_data * 4
        = color_plate_size env.host tag_data →
      env.resize_ok (color_plate_size env.host tag_data / 4) = false →
      P ⟨Outcome.decompress_no_memory,
        header_reads ++ [Event.read (compressed_color_plate_offset env.host tag_data) 4,
          Event.resize (color_plate_size env.host tag_data / 4)],
        extracted_count⟩)
    (k8 : 0x100 ≤ tag_data.length →
      color_plate_compressed_length env.host tag_data
        + compressed_color_plate_offset env.host tag_data ≤ tag_data.length →
      4 ≤ color_plate_compressed_length env.host tag_data →
      color_plate_width env.host tag_data * color_plate_height env.host tag_data * 4
        = color_plate_size env.host tag_data →
      env.resize_ok (color_plate_size env.host tag_data / 4) = true →
      env.inflateInit ≠ Z_OK →
      P ⟨Outcome.invalid_compressed_data,
        header_reads ++ [Event.read (compressed_color_plate_offset env.host tag_data) 4,
          Event.resize (color_plate_size env.host tag_data / 4), Event.inflateInit],
        extracted_count⟩)
    (k9 : 0x100 ≤ tag_data.length →
      color_plate_compressed_length env.host tag_data
        + compressed_color_plate_offset env.host tag_data ≤ tag_data.length →
      4 ≤ color_plate_compressed_length env.host tag_data →
      color_plate_width env.host tag_data * color_plate_height env.host tag_data * 4
        = color_plate_size env.host tag_data →
      env.resize_ok (color_plate_size env.host tag_data / 4) = true →
      env.inflateInit = Z_OK →
      (env.inflate
        ((tag_data.drop (compressed_color_plate_offset env.host tag_data + 4)).take
          (color_plate_compressed_length env.host tag_data - 4))
        (color_plate_size env.host tag_data)).status ≠ Z_STREAM_END →
      P ⟨Outcome.invalid_compressed_data,
        header_reads ++ [Event.read (compressed_color_plate_offset env.host tag_data) 4,
          Event.resize (color_plate_size env.host tag_data / 4), Event.inflateInit,
          Event.inflate (compressed_color_plate_offset env.host tag_data + 4)
            (color_plate_compressed_length env.host tag_data - 4)
            (color_plate_size env.host tag_data)],
        extracted_count⟩)
    (k10 : 0x100 ≤ tag_data.length →
      color_plate_compressed_length env.host tag_data
        + compressed_color_plate_offset env.host tag_data ≤ tag_data.length →
      4 ≤ color_plate_compressed_length env.host tag_data →
      color_plate_width env.host tag_data * color_plate_height env.host tag_data * 4
        = color_plate_size env.host tag_data →
      env.resize_ok (color_plate_size env.host tag_data / 4) = true →
      env.inflateInit = Z_OK →
      (env.inflate
        ((tag_data.drop (compressed_color_plate_offset env.host tag_data + 4)).take
          (color_plate_compressed_length env.host tag_data - 4))
        (color_plate_size env.host tag_data)).status = Z_STREAM_END →
      env.inflateEnd ≠ Z_OK →
      P ⟨Outcome.invalid_compressed_data, decompress_trace env tag_data, extracted_count⟩)
    (k11 : 0x100 ≤ tag_data.length →
      color_plate_compressed_length env.host tag_data
        + compressed_color_plate_offset env.host tag_data ≤ tag_data.length →
      4 ≤ color_plate_compressed_length env.host tag_data →
      color_plate_width env.host tag_data * color_plate_height env.host tag_data * 4
        = color_plate_size env.host tag_data →
      env.resize_ok (color_plate_size env.host tag_data / 4) = true →
      env.inflateInit = Z_OK →
      (env.inflate
        ((tag_data.drop (compressed_color_plate_offset env.host tag_data + 4)).take
          (color_plate_compressed_length env.host tag_data - 4))
        (color_plate_size env.host tag_data)).status = Z_STREAM_END →
      env.inflateEnd = Z_OK →
      env.create_directories_ok = false →
      P ⟨Outcome.directory_not_made,
        decompress_trace env tag_data ++ [Event.create_directories], extracted_count⟩)
    (k12 : 0x100 ≤ tag_data.length →
      color_plate_compressed_length env.host tag_data
        + compressed_color_plate_offset env.host tag_data ≤ tag_data.length →
      4 ≤ color_plate_compressed_length env.host tag_data →
      color_plate_width env.host tag_data * color_plate_height env.host tag_data * 4
        = color_plate_size env.host tag_data →
      env.resize_ok (color_plate_size env.host tag_data / 4) = true →
      env.inflateInit = Z_OK →
      (env.inflate
        ((tag_data.drop (compressed_color_plate_offset env.host tag_data + 4)).take
          (color_plate_compressed_length env.host tag_data - 4))
        (color_plate_size env.host tag_data)).status = Z_STREAM_END →
      env.inflateEnd = Z_OK →
      env.create_directories_ok = true →
      env.tiffOpen_ok = false →
      P ⟨Outcome.not_opened_for_writing,
        decompress_trace env tag_data ++ [Event.create_directories, Event.tiffOpen],
        extracted_count⟩)
    (k13 : 0x100 ≤ tag_data.length →
      color_plate_compressed_length env.host tag_data
        + compressed_color_plate_offset env.host tag_data ≤ tag_data.length →
      4 ≤ color_plate_compressed_length env.host tag_data →
      color_plate_width env.host tag_data * color_plate_height env.host tag_data * 4
        = color_plate_size env.host tag_data →
      env.resize_ok (color_plate_size env.host tag_data / 4) = true →
      env.inflateInit = Z_OK →
      (env.inflate
        ((tag_data.drop (compressed_color_plate_offset env.host tag_data + 4)).take
          (color_plate_compressed_length env.host tag_data - 4))
        (color_plate_size env.host tag_data)).status = Z_STREAM_END →
      env.inflateEnd = Z_OK →
      env.create_directories_ok = true →
      env.tiffOpen_ok = true →
      P ⟨Outcome.done,
        decompress_trace env tag_data
          ++ [Event.create_directories, Event.tiffOpen,
            Event.tiffSetFields (color_plate_width env.host tag_data)
              (color_plate_height env.host tag_data)]
          ++ write_scanlines env
            (normalize env.host
              (vector_elements env.host
                (output_bytes (color_plate_size env.host tag_data)
                  (env.inflate
                    ((tag_data.drop (compressed_color_plate_offset env.host tag_data + 4)).take
                      (color_plate_compressed_length env.host tag_data - 4))
                    (color_plate_size env.host tag_data)).produced)
                (color_plate_size env.host tag_data / 4)))
            (color_plate_width env.host tag_data) (color_plate_height env.host tag_data)
          ++ [Event.tiffClose],
        extracted_count + 1⟩) :
    P (dump_tag_data env tag_data extracted_count) := by
  by_cases c1 : tag_data.length < 0x100
  · simpa only [dump_tag_data, if_pos c1] using k1 c1
  have hsize : 0x100 ≤ tag_data.length := by omega
  by_cases c2 : little_to_native env.host 4 (deref env.host tag_data 0x24 4) ≠ bitm
  · simpa only [dump_tag_data, if_neg c1, if_pos c2] using k2 hsize c2
  by_cases c3 : little_to_native env.host 1
      (if deref env.host tag_data 0x38 2 ≠ 7 then 1 else 0) ≠ 0
  · simpa only [dump_tag_data, if_neg c1, if_neg c2, if_pos c3] using k3 hsize (not_not.mp c2) c3
  by_cases c4 : color_plate_compressed_length env.host tag_data = 0
  · simpa only [dump_tag_data, if_neg c1, if_neg c2, if_neg c3, if_pos c4]
      using k4 hsize (not_not.mp c2) (not_not.mp c3) c4
  have hlen : color_plate_compressed_length env.host tag_data < 2 ^ 32 := by
    rw [color_plate_compressed_length_eq env.host tag_data hsize]
    exact field_le_lt tag_data 0x6C 4
  have hoff : compressed_color_plate_offset env.host tag_data < 2 ^ 32 := by
    unfold compressed_color_plate_offset
    exact Nat.mod_lt _ (by decide)
  have hsum : (color_plate_compressed_length env.host tag_data
      + compressed_color_plate_offset env.host tag_data) % 2 ^ 64
      = color_plate_compressed_length env.host tag_data
        + compressed_color_plate_offset env.host tag_data := by
    apply Nat.mod_eq_of_lt
    norm_num at hlen hoff ⊢
    omega
  by_cases c5 : (color_plate_compressed_length env.host tag_data
      + compressed_color_plate_offset env.host tag_data) % 2 ^ 64 > tag_data.length
      ∨ color_plate_compressed_length env.host tag_data < 4
  · have c5' := c5
    rw [hsum] at c5'
    simpa only [dump_tag_data, if_neg c1, if_neg c2, if_neg c3, if_neg c4, if_pos c5,
      header_reads, List.cons_append, List.nil_append]
      using k5 hsize (not_not.mp c2) (not_not.mp c3) c4 c5'
  have hrun : dump_tag_data env tag_data extracted_count
      = decompress env tag_data header_reads extracted_count := by
    simp only [dump_tag_data, if_neg c1, if_neg c2, if_neg c3, if_neg c4, if_neg c5,
      header_reads, List.cons_append, List.nil_append]
  rw [hsum] at c5
  have b1 : color_plate_compressed_length env.host tag_data
      + compressed_color_plate_offset env.host tag_data ≤ tag_data.length := by omega
  have b2 : 4 ≤ color_plate_compressed_length env.host tag_data := by omega
  have hprod : ((color_plate_width env.host tag_data * color_plate_height env.host tag_data)
      % 2 ^ 32 * 4) % 2 ^ 64
      = color_plate_width env.host tag_data * color_plate_height env.host tag_data * 4 := by
    rw [expected_size_exact env.host tag_data hsize, color_plate_width_eq env.host tag_data hsize,
      color_plate_height_eq env.host tag_data hsize]
  rw [hrun]
  by_cases d1 : ((color_plate_width env.host tag_data * color_plate_height env.host tag_data)
      % 2 ^ 32 * 4) % 2 ^ 64 ≠ color_plate_size env.host tag_data
  · have d1' := d1
    rw [hprod] at d1'
    simpa only [decompress, if_pos d1] using k6 hsize b1 b2 d1'
  have d1' : color_plate_width env.host tag_data * color_plate_height env.host tag_data * 4
      = color_plate_size env.host tag_data := by
    rw [← hprod]
    exact not_not.mp d1
  by_cases d2 : env.resize_ok (color_plate_size env.host tag_data / 4) = false
  · simpa only [decompress, if_neg d1, if_pos d2, List.append_assoc, List.cons_append,
      List.nil_append] using k7 hsize b1 b2 d1' d2
  have d2' : env.resize_ok (color_plate_size env.host tag_data / 4) = true := by
    simpa using d2
  by_cases d3 : env.inflateInit ≠ Z_OK
  · simpa only [decompress, if_neg d1, if_neg d2, if_pos d3, List.append_assoc,
      List.cons_append, List.nil_append] using k8 hsize b1 b2 d1' d2' d3
  by_cases d4 : (env.inflate
      ((tag_data.drop (compressed_color_plate_offset env.host tag_data + 4)).take
        (color_plate_compressed_length env.host tag_data - 4))
      (color_plate_size env.host tag_data)).status ≠ Z_STREAM_END
  · simpa only [decompress, if_neg d1, if_neg d2, if_neg d3, if_pos d4, List.append_assoc,
      List.cons_append, List.nil_append] using k9 hsize b1 b2 d1' d2' (not_not.mp d3) d4
  by_cases d5 : env.inflateEnd ≠ Z_OK
  · simpa only [decompress, if_neg d1, if_neg d2, if_neg d3, if_neg d4, if_pos d5,
      decompress_trace, List.append_assoc, List.cons_append, List.nil_append]
      using k10 hsize b1 b2 d1' d2' (not_not.mp d3) (not_not.mp d4) d5
  by_cases e1 : env.create_directories_ok = false
  · simpa only [decompress, if_neg d1, if_neg d2, if_neg d3, if_neg d4, if_neg d5,
      write_image, if_pos e1, decompress_trace, List.append_assoc, List.cons_append,
      List.nil_append]
      using k11 hsize b1 b2 d1' d2' (not_not.mp d3) (not_not.mp d4) (not_not.mp d5) e1
  have e1' : env.create_directories_ok = true := by
    simpa using e1
  by_cases e2 : env.tiffOpen_ok = false
  · simpa only [decompress, if_neg d1, if_neg d2, if_neg d3, if_neg d4, if_neg d5,
      write_image, if_neg e1, if_pos e2, decompress_trace, List.append_assoc, List.cons_append,
      List.nil_append]
      using k12 hsize b1 b2 d1' d2' (not_not.mp d3) (not_not.mp d4) (not_not.mp d5) e1' e2
  have e2' : env.tiffOpen_ok = true := by
    simpa using e2
  simpa only [decompress, if_neg d1, if_neg d2, if_neg d3, if_neg d4, if_neg d5,
    write_image, if_neg e1, if_neg e2, decompress_trace, List.append_assoc, List.cons_append,
    List.nil_append]
    using k13 hsize b1 b2 d1' d2' (not_not.mp d3) (not_not.mp d4) (not_not.mp d5) e1' e2'

/-! ## The successful run -/

theorem length_output_bytes (n : Nat) (produced : List Byte) :
    (output_bytes n produced).length = n := by
  simp only [output_bytes, List.length_take, List.length_append, List.length_replicate]
  omega

/-- The two loops of lines 335 to 342 leave in element `i` of the vector the
channel swap of the little-endian value of bytes `4 * i` to `4 * i + 3` of
its memory, whatever the byte order of the host. -/
theorem normalize_vector_elements (host : Endian) (mem : List Byte) (count : Nat)
    (h : 4 * count ≤ mem.length) :
    normalize host (vector_elements host mem count)
      = (List.range count).map
        (fun i => swap_red_blue (ofBytesLE ((mem.drop (4 * i)).take 4))) := by
  simp only [normalize, vector_elements, List.map_map]
  apply List.map_congr_left
  intro i hi
  rw [List.mem_range] at hi
  have hl := length_field_bytes mem (4 * i) 4 (by omega)
  have hv := little_to_native_nativeValue host ((mem.drop (4 * i)).take 4)
  rw [hl] at hv
  simp only [Function.comp_apply, hv]

/-- A call that returns `true` has the trace of the straight-line path; the
vector zlib filled has `4 * width * height` bytes, and the scanlines are cut
from the list whose element `i` is the channel swap of the little-endian
value of bytes `4 * i` to `4 * i + 3` of that vector. -/
theorem trace_of_done (env : Env) (tag_data : List Byte) (extracted_count : Nat)
    (h : (dump_tag_data env tag_data extracted_count).outcome = Outcome.done) :
    (decompressed_bytes env tag_data).length
        = 4 * (field_le tag_data 0x68 2 * field_le tag_data 0x6A 2)
      ∧ (dump_tag_data env tag_data extracted_count).trace
        = decompress_trace env tag_data
          ++ [Event.create_directories, Event.tiffOpen,
            Event.tiffSetFields (field_le tag_data 0x68 2) (field_le tag_data 0x6A 2)]
          ++ write_scanlines env
            ((List.range (field_le tag_data 0x68 2 * field_le tag_data 0x6A 2)).map
              (fun i => swap_red_blue
                (ofBytesLE (((decompressed_bytes env tag_data).drop (4 * i)).take 4))))
            (field_le tag_data 0x68 2) (field_le tag_data 0x6A 2)
          ++ [Event.tiffClose] := by
  revert h
  refine dump_tag_data_cases env tag_data extracted_count
    (fun r => r.outcome = Outcome.done →
      (decompressed_bytes env tag_data).length
          = 4 * (field_le tag_data 0x68 2 * field_le tag_data 0x6A 2)
        ∧ r.trace
          = decompress_trace env tag_data
            ++ [Event.create_directories, Event.tiffOpen,
              Event.tiffSetFields (field_le tag_data 0x68 2) (field_le tag_data 0x6A 2)]
            ++ write_scanlines env
              ((List.range (field_le tag_data 0x68 2 * field_le tag_data 0x6A 2)).map
                (fun i => swap_red_blue
                  (ofBytesLE (((decompressed_bytes env tag_data).drop (4 * i)).take 4))))
              (field_le tag_data 0x68 2) (field_le tag_data 0x6A 2)
            ++ [Event.tiffClose])
    ?_ ?_ ?_ ?_ ?_ ?_ ?_ ?_ ?_ ?_ ?_ ?_ ?_
  iterate 12
    intros
    intro hdone
    exact Outcome.noConfusion hdone
  intro hsize _ _ hprod _ _ _ _ _ _ _
  rw [color_plate_width_eq env.host tag_data hsize,
    color_plate_height_eq env.host tag_data hsize] at hprod ⊢
  have hlen : (decompressed_bytes env tag_data).length
      = 4 * (field_le tag_data 0x68 2 * field_le tag_data 0x6A 2) := by
    rw [decompressed_bytes, length_output_bytes, ← hprod]
    omega
  have hcount : color_plate_size env.host tag_data / 4
      = field_le tag_data 0x68 2 * field_le tag_data 0x6A 2 := by
    rw [← hprod]
    omega
  refine ⟨hlen, ?_⟩
  have hn := normalize_vector_elements env.host (decompressed_bytes env tag_data)
    (field_le tag_data 0x68 2 * field_le tag_data 0x6A 2) (by omega)
  simp only [decompressed_bytes] at hn
  simp only [hcount, hn, decompressed_bytes]

/-! ## Accesses to the tag buffer -/

theorem write_scanlines_in_bounds (env : Env) (tag_data : List Byte) (pixels : List Nat)
    (width height : Nat) :
    ∀ e ∈ write_scanlines env pixels width height, in_bounds env tag_data e := by
  intro e he
  simp only [write_scanlines, List.mem_map] at he
  obtain ⟨y, -, rfl⟩ := he
  trivial


/-- Every access of a run to the tag buffer is in bounds. -/
theorem trace_in_bounds (env : Env) (tag_data : List Byte) (extracted_count : Nat) :
    ∀ e ∈ (dump_tag_data env tag_data extracted_count).trace, in_bounds env tag_data e := by
  refine dump_tag_data_cases env tag_data extracted_count
    (fun r => ∀ e ∈ r.trace, in_bounds env tag_data e)
    ?_ ?_ ?_ ?_ ?_ ?_ ?_ ?_ ?_ ?_ ?_ ?_ ?_
  iterate 12
    intros
    simp only [header_reads, decompress_trace, List.forall_mem_append,
      List.forall_mem_cons, List.cons_append, List.nil_append, in_bounds,
      List.length_take, List.length_drop, List.mem_cons, Prod.mk.injEq, List.not_mem_nil]
    try simp
    try omega
  intro hsize b1 b2 _ _ _ _ _ _ _ e he
  simp only [List.mem_append] at he
  rcases he with ((h | h) | h) | h
  · revert e
    simp only [header_reads, decompress_trace, List.forall_mem_append,
      List.forall_mem_cons, List.cons_append, List.nil_append, in_bounds,
      List.length_take, List.length_drop, List.mem_cons, Prod.mk.injEq, List.not_mem_nil]
    simp
    omega
  · simp only [List.mem_cons, List.not_mem_nil, or_false] at h
    rcases h with rfl | rfl | rfl <;> trivial
  · exact write_scanlines_in_bounds env tag_data _ _ _ e h
  · simp only [List.mem_singleton] at h
    subst h
    trivial

/-! ## The version test on a little-endian host -/

/-- On a little-endian host the test of line 241 compares the little-endian
version field with 7: a tag of `0x100` bytes or more with the right magic and
another version is rejected after the reads of the magic and the version. -/
theorem version_check_little_endian (env : Env) (tag_data : List Byte) (extracted_count : Nat)
    (hhost : env.host = Endian.little) (hsize : 0x100 ≤ tag_data.length)
    (hmagic : field_le tag_data 0x24 4 = bitm) (hversion : field_le tag_data 0x38 2 ≠ 7) :
    (dump_tag_data env tag_data extracted_count).outcome = Outcome.not_valid_tag
      ∧ (dump_tag_data env tag_data extracted_count).trace
        = [Event.read 0x24 4, Event.read 0x38 2] := by
  have c1 : ¬ tag_data.length < 0x100 := by omega
  have c2 : ¬ little_to_native env.host 4 (deref env.host tag_data 0x24 4) ≠ bitm := by
    rw [little_to_native_deref env.host tag_data 0x24 4 (by omega)]
    exact not_not.mpr hmagic
  have hv : deref env.host tag_data 0x38 2 ≠ 7 := by
    rw [hhost]
    exact hversion
  have c3 : little_to_native env.host 1
      (if deref env.host tag_data 0x38 2 ≠ 7 then 1 else 0) ≠ 0 := by
    rw [if_pos hv, little_to_native_bool env.host 1 (by decide)]
    decide
  simp only [dump_tag_data, if_neg c1, if_neg c2, if_pos c3, and_self]

/-! ## The bounds check as the code computes it -/

/-- For a tag that passes the header check and has a non-zero compressed
length, "is corrupt" is reported exactly when the length, added to the offset
reduced modulo `2 ^ 32`, exceeds the size of the buffer, or the length is
below 4. -/
theorem corrupt_iff_wrapped_sum (env : Env) (tag_data : List Byte) (extracted_count : Nat)
    (h : (dump_tag_data env tag_data extracted_count).outcome ≠ Outcome.not_valid_tag)
    (hlen : field_le tag_data 0x6C 4 ≠ 0) :
    (dump_tag_data env tag_data extracted_count).outcome = Outcome.corrupt
      ↔ (field_le tag_data 0x6C 4 + (field_le tag_data 0x4C 4 + 0x50) % 2 ^ 32
          > tag_data.length
        ∨ field_le tag_data 0x6C 4 < 4) := by
  obtain ⟨hsize, -⟩ := dump_tag_data_of_valid env tag_data extracted_count h
  rw [← color_plate_compressed_length_eq env.host tag_data hsize] at hlen ⊢
  rw [← compressed_color_plate_offset_eq env.host tag_data hsize]
  revert h
  refine dump_tag_data_cases env tag_data extracted_count
    (fun r => r.outcome ≠ Outcome.not_valid_tag →
      (r.outcome = Outcome.corrupt
        ↔ (color_plate_compressed_length env.host tag_data
            + compressed_color_plate_offset env.host tag_data > tag_data.length
          ∨ color_plate_compressed_length env.host tag_data < 4)))
    ?_ ?_ ?_ ?_ ?_ ?_ ?_ ?_ ?_ ?_ ?_ ?_ ?_
  all_goals intros
  all_goals simp_all

/-! ## Loading the tag file -/

/-- Once the destination may be written and the tag file has been opened and
read in full, `dump_bitmap_to_directory` is `dump_tag_data` on its contents. -/
theorem dump_bitmap_to_directory_of_loaded (env : Env) (overwrite : Bool)
    (extracted_count : Nat) (tag_data : List Byte)
    (hdest : overwrite = true ∨ env.data_exists = false)
    (hfile : env.tag_file = some tag_data) (hresize : env.tag_resize_ok = true)
    (hsize : tag_data ≠ []) (hread : env.fread_ok = true) :
    dump_bitmap_to_directory env overwrite extracted_count
      = dump_tag_data env tag_data extracted_count := by
  have c1 : ¬ (overwrite = false ∧ env.data_exists = true) := by
    rintro ⟨h1, h2⟩
    rcases hdest with h | h
    · rw [h1] at h
      exact Bool.noConfusion h
    · rw [h2] at h
      exact Bool.noConfusion h
  have c2 : ¬ env.tag_resize_ok = false := by
    rw [hresize]
    exact fun h => Bool.noConfusion h
  have c3 : ¬ (tag_data.length = 0 ∨ env.fread_ok = false) := by
    rintro (h | h)
    · exact hsize (List.length_eq_zero.mp h)
    · rw [hread] at h
      exact Bool.noConfusion h
  simp only [dump_bitmap_to_directory, if_neg c1, hfile, if_neg c2, if_neg c3]

/-! ## Claims -/

/-- C7: a buffer shorter than `0x100` bytes is rejected as "not a valid bitmap
tag" whatever it contains, and the run reads no field of it: the trace is
empty, so neither the magic at `0x24` nor the version at `0x38` is read. -/
theorem short_buffer_rejected_unread (env : Env) (tag_data : List Byte) (extracted_count : Nat)
    (h : tag_data.length < 0x100) :
    (dump_tag_data env tag_data extracted_count).outcome = Outcome.not_valid_tag
      ∧ (dump_tag_data env tag_data extracted_count).ret = false
      ∧ (dump_tag_data env tag_data extracted_count).trace = []
      ∧ (dump_tag_data env tag_data extracted_count).extracted_count = extracted_count := by
  simp only [dump_tag_data, if_pos h, Run.ret]
  simp

/-- C7 at a buffer of 255 bytes. -/
theorem short_buffer_rejected_unread_witness :
    (dump_tag_data (example_env Endian.little example_inflate 1)
        (List.replicate 0xFF 0x62) 0).outcome = Outcome.not_valid_tag
      ∧ (dump_tag_data (example_env Endian.little example_inflate 1)
        (List.replicate 0xFF 0x62) 0).trace = [] :=
  have h := short_buffer_rejected_unread (example_env Endian.little example_inflate 1)
    (List.replicate 0xFF 0x62) 0 (by decide)
  ⟨h.1, h.2.2.1⟩

/-- C8: for a tag that passes the size, magic and version checks (it is not
rejected as "not a valid bitmap tag"), a compressed length of zero gives "has
no color plate data", never "is corrupt", whatever the other fields hold; and
a compressed length of 1, 2 or 3 gives "is corrupt". -/
theorem empty_plate_is_not_corrupt (env : Env) (tag_data : List Byte) (extracted_count : Nat)
    (h : (dump_tag_data env tag_data extracted_count).outcome ≠ Outcome.not_valid_tag) :
    (field_le tag_data 0x6C 4 = 0 →
        (dump_tag_data env tag_data extracted_count).outcome = Outcome.no_color_plate
          ∧ (dump_tag_data env tag_data extracted_count).outcome ≠ Outcome.corrupt)
      ∧ (0 < field_le tag_data 0x6C 4 → field_le tag_data 0x6C 4 < 4 →
        (dump_tag_data env tag_data extracted_count).outcome = Outcome.corrupt) := by
  obtain ⟨hsize, hrun⟩ := dump_tag_data_of_valid env tag_data extracted_count h
  rw [hrun, color_plate_compressed_length_eq env.host tag_data hsize]
  constructor
  · intro h0
    rw [if_pos h0]
    exact ⟨rfl, fun hc => Outcome.noConfusion hc⟩
  · intro hpos hlt
    rw [if_neg (by omega), if_pos (Or.inr hlt)]

/-- C8 at a tag with compressed length 0 and all other fields at their
maximum, and at a tag with compressed length 3. -/
theorem empty_plate_is_not_corrupt_witness :
    (dump_tag_data (example_env Endian.little example_inflate 1)
        (example_tag [7, 0] [0xFF, 0xFF, 0xFF, 0xFF] [0xFF, 0xFF] [0xFF, 0xFF] [0, 0, 0, 0] [])
        0).outcome = Outcome.no_color_plate
      ∧ (dump_tag_data (example_env Endian.little example_inflate 1)
        (example_tag [7, 0] [0, 0, 0, 0] [1, 0] [1, 0] [3, 0, 0, 0] [])
        0).outcome = Outcome.corrupt :=
  ⟨((empty_plate_is_not_corrupt (example_env Endian.little example_inflate 1)
      (example_tag [7, 0] [0xFF, 0xFF, 0xFF, 0xFF] [0xFF, 0xFF] [0xFF, 0xFF] [0, 0, 0, 0] [])
      0 (by decide)).1 (by decide)).1,
    (empty_plate_is_not_corrupt (example_env Endian.little example_inflate 1)
      (example_tag [7, 0] [0, 0, 0, 0] [1, 0] [1, 0] [3, 0, 0, 0] [])
      0 (by decide)).2 (by decide) (by decide)⟩

/-- C2: for a tag that passes the header, empty-plate and bounds checks, let
`d` be the big-endian 32-bit prefix at the block offset the code computes
(`0x50` plus the field at `0x4C`).  If `d` differs from the exact product
`width * height * 4` of the 16-bit fields at `0x68` and `0x6A`, the call fails
with "has invalid color plate data"; its trace then holds the seven reads of
the tag and nothing else, so the output vector has not been resized and zlib
has not been called. -/
theorem size_mismatch_before_decompression (env : Env) (tag_data : List Byte)
    (extracted_count : Nat)
    (h1 : (dump_tag_data env tag_data extracted_count).outcome ≠ Outcome.not_valid_tag)
    (h2 : (dump_tag_data env tag_data extracted_count).outcome ≠ Outcome.no_color_plate)
    (h3 : (dump_tag_data env tag_data extracted_count).outcome ≠ Outcome.corrupt)
    (hd : field_be tag_data (compressed_color_plate_offset env.host tag_data) 4
      ≠ field_le tag_data 0x68 2 * field_le tag_data 0x6A 2 * 4) :
    (dump_tag_data env tag_data extracted_count).outcome = Outcome.invalid_color_plate
      ∧ (dump_tag_data env tag_data extracted_count).ret = false
      ∧ (dump_tag_data env tag_data extracted_count).trace
        = header_reads ++ [Event.read (compressed_color_plate_offset env.host tag_data) 4]
      ∧ (∀ n, Event.resize n ∉ (dump_tag_data env tag_data extracted_count).trace)
      ∧ Event.inflateInit ∉ (dump_tag_data env tag_data extracted_count).trace
      ∧ (∀ i n m, Event.inflate i n m ∉ (dump_tag_data env tag_data extracted_count).trace) := by
  obtain ⟨hsize, hsum, hlen, hrun⟩ :=
    dump_tag_data_of_passes env tag_data extracted_count h1 h2 h3
  have hc : ((color_plate_width env.host tag_data * color_plate_height env.host tag_data)
      % 2 ^ 32 * 4) % 2 ^ 64 ≠ color_plate_size env.host tag_data := by
    rw [expected_size_exact env.host tag_data hsize,
      color_plate_size_eq env.host tag_data (by omega)]
    exact fun h => hd h.symm
  rw [hrun]
  simp only [decompress, if_pos hc, Run.ret, header_reads]
  simp

/-- C2 at a 2 x 3 tag whose block declares 20 bytes instead of 24. -/
theorem size_mismatch_before_decompression_witness :
    (dump_tag_data (example_env Endian.little example_inflate 1)
        (example_tag [7, 0] [0xB0, 0, 0, 0] [2, 0] [3, 0] [12, 0, 0, 0]
          [0, 0, 0, 20, 0x78, 0x9C, 0x03, 0x00, 0x00, 0x00, 0x00, 0x01]) 0).outcome
      = Outcome.invalid_color_plate :=
  (size_mismatch_before_decompression (example_env Endian.little example_inflate 1)
    (example_tag [7, 0] [0xB0, 0, 0, 0] [2, 0] [3, 0] [12, 0, 0, 0]
      [0, 0, 0, 20, 0x78, 0x9C, 0x03, 0x00, 0x00, 0x00, 0x00, 0x01]) 0
    (by decide) (by decide) (by decide) (by decide)).1

/-- C3, as the code behaves: a stream that ends after none of the four
declared bytes is accepted, and so is a stream that leaves a byte of the
compressed range unconsumed; both calls return `true`. -/
theorem short_or_partly_consumed_stream_accepted :
    ((example_inflate ((early_end_tag.drop 0x104).take 8) 4).status = Z_STREAM_END
      ∧ (example_inflate ((early_end_tag.drop 0x104).take 8) 4).produced.length = 0
      ∧ color_plate_size Endian.little early_end_tag = 4
      ∧ (dump_tag_data (example_env Endian.little example_inflate 1) early_end_tag 0).outcome
        = Outcome.done)
    ∧ ((example_inflate ((trailing_byte_tag.drop 0x104).take 13) 4).status = Z_STREAM_END
      ∧ (example_inflate ((trailing_byte_tag.drop 0x104).take 13) 4).consumed = 12
      ∧ color_plate_compressed_length Endian.little trailing_byte_tag - 4 = 13
      ∧ (dump_tag_data (example_env Endian.little example_inflate 1) trailing_byte_tag 0).outcome
        = Outcome.done) := by
  decide

/-- C3, amended: for a tag that passes all validation and whose output vector
is allocated, the call fails with "could not be decompressed due to invalid
compressed data" exactly when `inflateInit` does not return `Z_OK`, or
`inflate(Z_FINISH)` does not return `Z_STREAM_END`, or `inflateEnd` does not
return `Z_OK`; the byte counts zlib consumed and produced are not looked at. -/
theorem decompression_fails_iff_status (env : Env) (tag_data : List Byte)
    (extracted_count : Nat)
    (h1 : (dump_tag_data env tag_data extracted_count).outcome ≠ Outcome.not_valid_tag)
    (h2 : (dump_tag_data env tag_data extracted_count).outcome ≠ Outcome.no_color_plate)
    (h3 : (dump_tag_data env tag_data extracted_count).outcome ≠ Outcome.corrupt)
    (h4 : (dump_tag_data env tag_data extracted_count).outcome ≠ Outcome.invalid_color_plate)
    (h5 : (dump_tag_data env tag_data extracted_count).outcome ≠ Outcome.decompress_no_memory) :
    (dump_tag_data env tag_data extracted_count).outcome = Outcome.invalid_compressed_data
      ↔ ¬ (env.inflateInit = Z_OK
        ∧ (env.inflate
            ((tag_data.drop (compressed_color_plate_offset env.host tag_data + 4)).take
              (color_plate_compressed_length env.host tag_data - 4))
            (color_plate_size env.host tag_data)).status = Z_STREAM_END
        ∧ env.inflateEnd = Z_OK) := by
  obtain ⟨-, -, -, hrun⟩ := dump_tag_data_of_passes env tag_data extracted_count h1 h2 h3
  rw [hrun] at h4 h5 ⊢
  by_cases c1 : ((color_plate_width env.host tag_data * color_plate_height env.host tag_data)
      % 2 ^ 32 * 4) % 2 ^ 64 ≠ color_plate_size env.host tag_data
  · exact absurd (by simp only [decompress, if_pos c1]) h4
  by_cases c2 : env.resize_ok (color_plate_size env.host tag_data / 4) = false
  · exact absurd (by simp only [decompress, if_neg c1, if_pos c2]) h5
  by_cases c3 : env.inflateInit ≠ Z_OK
  · simp only [decompress, if_neg c1, if_neg c2, if_pos c3, true_iff]
    exact fun h => c3 h.1
  by_cases c4 : (env.inflate
      ((tag_data.drop (compressed_color_plate_offset env.host tag_data + 4)).take
        (color_plate_compressed_length env.host tag_data - 4))
      (color_plate_size env.host tag_data)).status ≠ Z_STREAM_END
  · simp only [decompress, if_neg c1, if_neg c2, if_neg c3, if_pos c4, true_iff]
    exact fun h => c4 h.2.1
  by_cases c5 : env.inflateEnd ≠ Z_OK
  · simp only [decompress, if_neg c1, if_neg c2, if_neg c3, if_neg c4, if_pos c5, true_iff]
    exact fun h => c5 h.2.2
  simp only [decompress, if_neg c1, if_neg c2, if_neg c3, if_neg c4, if_neg c5]
  constructor
  · intro h
    rcases write_image_outcome env tag_data
      (vector_elements env.host
        (output_bytes (color_plate_size env.host tag_data)
          (env.inflate
            ((tag_data.drop (compressed_color_plate_offset env.host tag_data + 4)).take
              (color_plate_compressed_length env.host tag_data - 4))
            (color_plate_size env.host tag_data)).produced)
        (color_plate_size env.host tag_data / 4))
      (header_reads ++ [Event.read (compressed_color_plate_offset env.host tag_data) 4]
        ++ [Event.resize (color_plate_size env.host tag_data / 4)] ++ [Event.inflateInit]
        ++ [Event.inflate (compressed_color_plate_offset env.host tag_data + 4)
          (color_plate_compressed_length env.host tag_data - 4)
          (color_plate_size env.host tag_data)] ++ [Event.inflateEnd])
      extracted_count with h' | h' | h' <;> rw [h'] at h <;> exact Outcome.noConfusion h
  · intro h
    exact absurd ⟨not_not.mp c3, not_not.mp c4, not_not.mp c5⟩ h

/-- C3, amended, at a run in which `inflate` returns `Z_BUF_ERROR`. -/
theorem decompression_fails_iff_status_witness :
    (dump_tag_data (example_env Endian.little (fun _ _ => ⟨-5, 0, []⟩) 1) plate_tag 0).outcome
      = Outcome.invalid_compressed_data :=
  (decompression_fails_iff_status (example_env Endian.little (fun _ _ => ⟨-5, 0, []⟩) 1)
    plate_tag 0 (by decide) (by decide) (by decide) (by decide) (by decide)).2 (by decide)

/-- C4: the channel swap of line 341 keeps bits 24 to 31 and 8 to 15 of a
pixel, puts its bits 0 to 7 at 16 to 23 and its bits 16 to 23 at 0 to 7, and
yields a 32-bit value.  The two loops replace every element of the vector by
the swap of its `little_to_native` value, once, and keep the vector's length.
In every call that returns `true` the vector zlib filled has
`4 * width * height` bytes, and the pixels handed to `TIFFWriteScanline` are
cut from the list of `width * height` values whose element `i` is the swap of
the little-endian value of bytes `4 * i` to `4 * i + 3` of that vector, on
either host.  On a little-endian host the stored pixels
`[0xAABBCCDD, 0x11223344, 0x55667788, 0x99AABBCC]` become
`[0xAADDCCBB, 0x11443322, 0x55887766, 0x99CCBBAA]`, and the call on the 2 x 2
tag holding them writes the rows `[0xAADDCCBB, 0x11443322]` and
`[0x55887766, 0x99CCBBAA]`. -/
theorem channel_swap_normalisation :
    (∀ (p : Nat) (j : Fin 8),
        (swap_red_blue p).testBit (24 + j.val) = p.testBit (24 + j.val)
          ∧ (swap_red_blue p).testBit (8 + j.val) = p.testBit (8 + j.val)
          ∧ (swap_red_blue p).testBit (16 + j.val) = p.testBit j.val
          ∧ (swap_red_blue p).testBit j.val = p.testBit (16 + j.val))
      ∧ (∀ p : Nat, swap_red_blue p < 2 ^ 32)
      ∧ (∀ (host : Endian) (pixels : List Nat),
        normalize host pixels
            = pixels.map (fun p => swap_red_blue (little_to_native host 4 p))
          ∧ (normalize host pixels).length = pixels.length)
      ∧ (∀ (env : Env) (tag_data : List Byte) (extracted_count : Nat),
        (dump_tag_data env tag_data extracted_count).outcome = Outcome.done →
        (decompressed_bytes env tag_data).length
            = 4 * (field_le tag_data 0x68 2 * field_le tag_data 0x6A 2)
          ∧ (dump_tag_data env tag_data extracted_count).trace
            = decompress_trace env tag_data
              ++ [Event.create_directories, Event.tiffOpen,
                Event.tiffSetFields (field_le tag_data 0x68 2) (field_le tag_data 0x6A 2)]
              ++ write_scanlines env
                ((List.range (field_le tag_data 0x68 2 * field_le tag_data 0x6A 2)).map
                  (fun i => swap_red_blue
                    (ofBytesLE (((decompressed_bytes env tag_data).drop (4 * i)).take 4))))
                (field_le tag_data 0x68 2) (field_le tag_data 0x6A 2)
              ++ [Event.tiffClose])
      ∧ normalize Endian.little [0xAABBCCDD, 0x11223344, 0x55667788, 0x99AABBCC]
        = [0xAADDCCBB, 0x11443322, 0x55887766, 0x99CCBBAA]
      ∧ (dump_tag_data (example_env Endian.little four_pixel_inflate 1) four_pixel_tag 0).trace
        = decompress_trace (example_env Endian.little four_pixel_inflate 1) four_pixel_tag
          ++ [Event.create_directories, Event.tiffOpen, Event.tiffSetFields 2 2,
            Event.tiffWriteScanline 0 [0xAADDCCBB, 0x11443322] 1,
            Event.tiffWriteScanline 1 [0x55887766, 0x99CCBBAA] 1,
            Event.tiffClose] := by
  have hn : ∀ (host : Endian) (pixels : List Nat),
      normalize host pixels
        = pixels.map (fun p => swap_red_blue (little_to_native host 4 p)) := by
    intro host pixels
    simp only [normalize, List.map_map]
    rfl
  refine ⟨?_, swap_red_blue_lt, ?_, trace_of_done, by rfl, by decide⟩
  · intro p j
    have hj := j.isLt
    simp only [testBit_swap_red_blue]
    refine ⟨?_, ?_, ?_, ?_⟩
    · rw [if_neg (by omega), if_neg (by omega), if_neg (by omega), if_pos (by omega)]
    · rw [if_neg (by omega), if_pos (by omega)]
    · rw [if_neg (by omega), if_neg (by omega), if_pos (by omega)]
      congr 1
      omega
    · rw [if_pos (by omega)]
      congr 1
      omega
  · intro host pixels
    refine ⟨hn host pixels, ?_⟩
    simp only [normalize, List.length_map]

/-- C4 at the 2 x 2 tag on a big-endian host (with the version bytes that host
lets through): the call returns `true`, and the rows it writes are the swaps
of the little-endian values of the decompressed bytes, `[0xAADDCCBB, 0x11443322]`
and `[0x55887766, 0x99CCBBAA]`. -/
theorem channel_swap_normalisation_witness :
    (dump_tag_data (example_env Endian.big four_pixel_inflate 1)
        four_pixel_tag_swapped_version 0).outcome = Outcome.done
      ∧ Event.tiffWriteScanline 0 [0xAADDCCBB, 0x11443322] 1
        ∈ (dump_tag_data (example_env Endian.big four_pixel_inflate 1)
          four_pixel_tag_swapped_version 0).trace
      ∧ Event.tiffWriteScanline 1 [0x55887766, 0x99CCBBAA] 1
        ∈ (dump_tag_data (example_env Endian.big four_pixel_inflate 1)
          four_pixel_tag_swapped_version 0).trace := by
  have h := channel_swap_normalisation.2.2.2.1 (example_env Endian.big four_pixel_inflate 1)
    four_pixel_tag_swapped_version 0 (by decide)
  refine ⟨by decide, ?_, ?_⟩
  · rw [h.2]
    decide
  · rw [h.2]
    decide

/-- C1, at a failing input: the tag `wrapping_offset_tag` has `0x100` bytes,
offset field `0xFFFFFFB0` and compressed length 16, so the exact sum
`off + 0x50 + len` is `2 ^ 32 + 16`, far beyond the buffer.  The code forms
`off + 0x50` in 32 bits, gets 0, finds `16 + 0 <= 0x100`, does not report the
tag corrupt, reads the prefix at offset 0 and returns `true`. -/
theorem wrapped_offset_accepted :
    wrapping_offset_tag.length = 0x100
      ∧ field_le wrapping_offset_tag 0x24 4 = bitm
      ∧ field_le wrapping_offset_tag 0x38 2 = 7
      ∧ field_le wrapping_offset_tag 0x4C 4 = 0xFFFFFFB0
      ∧ field_le wrapping_offset_tag 0x6C 4 = 16
      ∧ field_le wrapping_offset_tag 0x4C 4 + 0x50 + field_le wrapping_offset_tag 0x6C 4
        = 2 ^ 32 + 16
      ∧ field_le wrapping_offset_tag 0x4C 4 + 0x50 + field_le wrapping_offset_tag 0x6C 4
        > wrapping_offset_tag.length
      ∧ compressed_color_plate_offset Endian.little wrapping_offset_tag = 0
      ∧ (dump_tag_data (example_env Endian.little example_inflate 1)
          wrapping_offset_tag 0).outcome ≠ Outcome.corrupt
      ∧ (dump_tag_data (example_env Endian.little example_inflate 1)
          wrapping_offset_tag 0).outcome = Outcome.done
      ∧ Event.read 0 4 ∈ (dump_tag_data (example_env Endian.little example_inflate 1)
          wrapping_offset_tag 0).trace := by
  decide

/-- C5, at a failing input: on a big-endian host the test of line 241 compares
the version field in the host's byte order.  The tag `swapped_version_tag`
holds the bytes `00 07`, little-endian version `0x0700`, and is not rejected:
the call reads the color plate fields and returns `true`; whereas `plate_tag`,
whose little-endian version is 7, is rejected as not a valid bitmap tag. -/
theorem version_check_big_endian_host :
    0x100 ≤ swapped_version_tag.length
      ∧ field_le swapped_version_tag 0x24 4 = bitm
      ∧ field_le swapped_version_tag 0x38 2 = 0x0700
      ∧ (dump_tag_data (example_env Endian.big example_inflate 1)
          swapped_version_tag 0).outcome = Outcome.done
      ∧ Event.read 0x6C 4 ∈ (dump_tag_data (example_env Endian.big example_inflate 1)
          swapped_version_tag 0).trace
      ∧ field_le plate_tag 0x38 2 = 7
      ∧ (dump_tag_data (example_env Endian.big example_inflate 1) plate_tag 0).outcome
        = Outcome.not_valid_tag := by
  decide

/-- C6, as the code behaves: every `TIFFWriteScanline` call of this run
returns -1, and the call still returns `true` and increments
`extracted_count`. -/
theorem failed_scanline_write_ignored :
    (example_env Endian.little example_inflate (-1)).tiffOpen_ok = true
      ∧ Event.tiffWriteScanline 0 [0] (-1)
        ∈ (dump_tag_data (example_env Endian.little example_inflate (-1)) plate_tag 5).trace
      ∧ (dump_tag_data (example_env Endian.little example_inflate (-1)) plate_tag 5).ret = true
      ∧ (dump_tag_data (example_env Endian.little example_inflate (-1)) plate_tag 5).extracted_count
        = 6 := by
  decide

/-- C6, amended: in a run that calls `TIFFOpen`, if the image file cannot
be opened the call fails with "could not be opened for writing", returns
`false` and leaves `extracted_count` as it was; if the file is opened the call returns
`true` and increments `extracted_count` by one, whatever the
`TIFFWriteScanline` calls return: their return values do not change the exit
or the counter. -/
theorem write_error_only_from_open (env : Env) (tag_data : List Byte) (extracted_count : Nat)
    (h : Event.tiffOpen ∈ (dump_tag_data env tag_data extracted_count).trace) :
    (env.tiffOpen_ok = false →
        (dump_tag_data env tag_data extracted_count).outcome = Outcome.not_opened_for_writing
          ∧ (dump_tag_data env tag_data extracted_count).ret = false
          ∧ (dump_tag_data env tag_data extracted_count).extracted_count = extracted_count)
      ∧ (env.tiffOpen_ok = true →
        (dump_tag_data env tag_data extracted_count).outcome = Outcome.done
          ∧ (dump_tag_data env tag_data extracted_count).ret = true
          ∧ (dump_tag_data env tag_data extracted_count).extracted_count
            = extracted_count + 1) := by
  revert h
  refine dump_tag_data_cases env tag_data extracted_count
    (fun r => Event.tiffOpen ∈ r.trace →
      (env.tiffOpen_ok = false →
        r.outcome = Outcome.not_opened_for_writing ∧ r.ret = false
          ∧ r.extracted_count = extracted_count)
      ∧ (env.tiffOpen_ok = true →
        r.outcome = Outcome.done ∧ r.ret = true ∧ r.extracted_count = extracted_count + 1))
    ?_ ?_ ?_ ?_ ?_ ?_ ?_ ?_ ?_ ?_ ?_ ?_ ?_
  all_goals intros
  all_goals simp_all [header_reads, decompress_trace, Run.ret]

/-- C6, amended, at a run whose scanline write returns -1. -/
theorem write_error_only_from_open_witness :
    (dump_tag_data (example_env Endian.little example_inflate (-1)) plate_tag 0).outcome
        = Outcome.done
      ∧ (dump_tag_data (example_env Endian.little example_inflate (-1)) plate_tag 0).ret = true
      ∧ (dump_tag_data (example_env Endian.little example_inflate (-1)) plate_tag
          0).extracted_count = 0 + 1 :=
  (write_error_only_from_open (example_env Endian.little example_inflate (-1)) plate_tag 0
    (by decide)).2 (by decide)

/-- C10: every access of a run to the tag buffer is in bounds.  A read in the
trace ends inside the buffer, and it is either one of the header fields at
`0x24`, `0x38`, `0x4C`, `0x68`, `0x6A`, `0x6C` or the four-byte prefix at the
block offset the code computes, the latter only after the bounds check has
passed.  A call of `inflate` in the trace is handed the range from
`offset + 4` to `offset + len`, which ends inside the buffer and holds exactly
`len - 4` bytes.  The header fields lie inside any buffer of `0x100` bytes. -/
theorem tag_accesses_in_bounds (env : Env) (tag_data : List Byte) (extracted_count : Nat)
    (e : Event) (he : e ∈ (dump_tag_data env tag_data extracted_count).trace) :
    (∀ off width, e = Event.read off width →
      off + width ≤ tag_data.length
        ∧ ((off, width) ∈ [(0x24, 4), (0x38, 2), (0x4C, 4), (0x68, 2), (0x6A, 2), (0x6C, 4)]
          ∨ ((off, width) = (compressed_color_plate_offset env.host tag_data, 4)
            ∧ color_plate_compressed_length env.host tag_data
                + compressed_color_plate_offset env.host tag_data ≤ tag_data.length
            ∧ 4 ≤ color_plate_compressed_length env.host tag_data)))
      ∧ (∀ next_in avail_in avail_out, e = Event.inflate next_in avail_in avail_out →
        next_in = compressed_color_plate_offset env.host tag_data + 4
          ∧ avail_in = color_plate_compressed_length env.host tag_data - 4
          ∧ next_in + avail_in
            = compressed_color_plate_offset env.host tag_data
              + color_plate_compressed_length env.host tag_data
          ∧ next_in + avail_in ≤ tag_data.length
          ∧ ((tag_data.drop next_in).take avail_in).length
            = color_plate_compressed_length env.host tag_data - 4)
      ∧ (0x100 ≤ tag_data.length →
        ∀ field ∈ [(0x24, 4), (0x38, 2), (0x4C, 4), (0x68, 2), (0x6A, 2), (0x6C, 4)],
          field.1 + field.2 ≤ tag_data.length) := by
  have h := trace_in_bounds env tag_data extracted_count e he
  refine ⟨?_, ?_, ?_⟩
  · intro off width heq
    subst heq
    exact h
  · intro next_in avail_in avail_out heq
    subst heq
    obtain ⟨h1, h2, h3, h4, h5⟩ := h
    exact ⟨h1, h2, h3, h4, h5.trans h2⟩
  · intro hsize field hf
    simp only [List.mem_cons, List.not_mem_nil, or_false] at hf
    rcases hf with rfl | rfl | rfl | rfl | rfl | rfl <;> simp only <;> omega

/-- C10 at the `inflate` call of the run on `plate_tag`. -/
theorem tag_accesses_in_bounds_witness :
    0x104 + 12 ≤ plate_tag.length
      ∧ ((plate_tag.drop 0x104).take 12).length
        = color_plate_compressed_length Endian.little plate_tag - 4 :=
  have h := (tag_accesses_in_bounds (example_env Endian.little example_inflate 1) plate_tag 0
    (Event.inflate 0x104 12 4) (by decide)).2.1 0x104 12 4 rfl
  ⟨h.2.2.2.1, h.2.2.2.2⟩

end ColorPlate
